import Mathlib

/-! Vehicle simulation (`sim.js`): engine, transmission and the per-frame update.

A shallow embedding of the classes `Engine`, `Transmission` and `Vehicle` of
`sim.js`, in two layers.

Exact layer (`Engine`, `Transmission`, `Vehicle`, `Input`).  JavaScript numbers
are modelled by exact rationals `ℚ`; rounding is not modelled.  A JavaScript
value that is not a finite number (`undefined` from a failed table lookup,
`NaN` or an infinity from a division by zero) is modelled by `none`.  The
properties stated in this layer are those that do not depend on rounding.

Binary64 layer (`F64`, `Engine.torqueCurve64`, `Vehicle64`).  The same code
over IEEE 754 binary64 values with every operation rounded to nearest, ties to
even, with subnormals, infinities and `NaN`.  It is used to evaluate the
program at concrete inputs where rounding decides the outcome.
-/

namespace Sim

/-! Section: Input snapshot -/

/-- Fields of `class Input`: the two numbers read by `Vehicle.update`. -/
structure Input where
  throttle : ℚ
  steer : ℚ
  deriving DecidableEq, Repr

/-- Constructor `new Input()`: both fields start at 0. The registration of the
two window listeners is not part of the state. -/
def Input.new : Input :=
  { throttle := 0, steer := 0 }

/-- Method `onKey(e, down)`, with `key` the string `e.key` and `down` the
boolean passed by the listeners: three `if` statements executed in sequence,
`if (e.key === "w") this.throttle = down ? 1 : 0;`,
`if (e.key === "a") this.steer = down ? -1 : 0;`,
`if (e.key === "d") this.steer = down ? 1 : 0;`. -/
def Input.onKey (i : Input) (key : String) (down : Bool) : Input :=
  let i1 : Input := if key = "w" then { i with throttle := if down then 1 else 0 } else i
  let i2 : Input := if key = "a" then { i1 with steer := if down then -1 else 0 } else i1
  let i3 : Input := if key = "d" then { i2 with steer := if down then 1 else 0 } else i2
  i3

/-- The input after a sequence of key events `(e.key, down)`, oldest first,
starting from `new Input()`. -/
def Input.afterEvents (events : List (String × Bool)) : Input :=
  events.foldl (fun i e => i.onKey e.1 e.2) Input.new

/-! Section: Engine -/

/-- Fields of `class Engine`. -/
structure Engine where
  rpm : ℚ
  maxRPM : ℚ
  idleRPM : ℚ
  deriving DecidableEq, Repr

/-- Constructor `new Engine()`. -/
def Engine.new : Engine :=
  { rpm := 1000, maxRPM := 7000, idleRPM := 900 }

/-- Method `Engine.torqueCurve(rpm)`:
`Math.max(0, -0.000002 * (rpm - 4000) ** 2 + 280)`. The method does not read
the receiver. -/
def Engine.torqueCurve (rpm : ℚ) : ℚ :=
  max 0 (-0.000002 * (rpm - 4000) ^ 2 + 280)

/-! Section: Transmission -/

/-- Fields of `class Transmission`. The object `gears` is a table from gear
label to ratio; `currentIndex` is a JavaScript number, here an integer. -/
structure Transmission where
  gears : List (String × ℚ)
  order : List String
  currentIndex : Int
  deriving DecidableEq, Repr

/-- Constructor `new Transmission()`. -/
def Transmission.new : Transmission :=
  { gears := [("R", -3.2), ("1", 3.5), ("2", 2.2), ("3", 1.5), ("4", 1.1),
              ("5", 0.9), ("N", 0)]
    order := ["R", "N", "1", "2", "3", "4", "5"]
    currentIndex := 1 }

/-- Getter `get gear()`: `this.order[this.currentIndex]`; `none` is `undefined`
(index outside the array). -/
def Transmission.gear (t : Transmission) : Option String :=
  if 0 ≤ t.currentIndex then t.order[t.currentIndex.toNat]? else none

/-- Method `ratio()`: `this.gears[this.gear]`; `none` is `undefined` (no such key). -/
def Transmission.ratio (t : Transmission) : Option ℚ :=
  match t.gear with
  | none => none
  | some g => t.gears.lookup g

/-- Method `shiftUp()`: `if (this.currentIndex < this.order.length - 1)
this.currentIndex++`. -/
def Transmission.shiftUp (t : Transmission) : Transmission :=
  if t.currentIndex < (t.order.length : Int) - 1 then
    { t with currentIndex := t.currentIndex + 1 }
  else t

/-- Method `shiftDown()`: `if (this.currentIndex > 0) this.currentIndex--`. -/
def Transmission.shiftDown (t : Transmission) : Transmission :=
  if t.currentIndex > 0 then
    { t with currentIndex := t.currentIndex - 1 }
  else t

/-- States reachable from `new Transmission()` by `shiftUp` and `shiftDown`
calls. -/
inductive Transmission.Reachable : Transmission → Prop
  | init : Transmission.Reachable Transmission.new
  | shiftUp {t : Transmission} : Transmission.Reachable t → Transmission.Reachable t.shiftUp
  | shiftDown {t : Transmission} :
      Transmission.Reachable t → Transmission.Reachable t.shiftDown

/-! Section: Vehicle -/

/-- Fields of `class Vehicle`. -/
structure Vehicle where
  engine : Engine
  transmission : Transmission
  speed : ℚ
  heading : ℚ
  angularVelocity : ℚ
  mass : ℚ
  drag : ℚ
  lateralGrip : ℚ
  deriving DecidableEq, Repr

/-- Constructor `new Vehicle()`. -/
def Vehicle.new : Vehicle :=
  { engine := Engine.new
    transmission := Transmission.new
    speed := 0
    heading := 0
    angularVelocity := 0
    mass := 1200
    drag := 0.98
    lateralGrip := 1.0 }

/-- Method `Vehicle.update(input, dt)`.

The result is `none` when the JavaScript computation leaves the finite
numbers: the ratio lookup gives `undefined`, or `this.mass` is `0` (division by
zero). Otherwise the statements of the method are followed one by one. -/
def Vehicle.update (v : Vehicle) (input : Input) (dt : ℚ) : Option Vehicle :=
  match v.transmission.ratio with
  | none => none
  | some ratio =>
    if v.mass = 0 then none
    else
      let torque := Engine.torqueCurve v.engine.rpm
      let driveForce := torque * ratio * input.throttle
      -- Inertia
      let speed1 := v.speed + (driveForce / v.mass) * dt
      let speed2 := speed1 * v.drag
      -- RPM sync
      let engine : Engine :=
        if ratio ≠ 0 then
          { v.engine with
            rpm := max v.engine.idleRPM (min v.engine.maxRPM |speed2 * ratio * 60|) }
        else v.engine
      -- Steering & drifting
      let lateralForce := |speed2 * input.steer|
      let slip : Bool := decide (lateralForce > v.lateralGrip * 15)
      let heading :=
        if slip then v.heading + input.steer * speed2 * 0.04
        else v.heading + input.steer * speed2 * 0.02
      some { v with engine := engine, speed := speed2, heading := heading }

/-- The transmission methods called on `vehicle.transmission`. -/
def Vehicle.shiftUp (v : Vehicle) : Vehicle :=
  { v with transmission := v.transmission.shiftUp }

/-- See `Vehicle.shiftUp`. -/
def Vehicle.shiftDown (v : Vehicle) : Vehicle :=
  { v with transmission := v.transmission.shiftDown }

/-- States reachable from `new Vehicle()` by `update`, `shiftUp` and
`shiftDown` calls with arbitrary arguments. -/
inductive Vehicle.Reachable : Vehicle → Prop
  | init : Vehicle.Reachable Vehicle.new
  | update {v v1 : Vehicle} (input : Input) (dt : ℚ) :
      Vehicle.Reachable v → v.update input dt = some v1 → Vehicle.Reachable v1
  | shiftUp {v : Vehicle} : Vehicle.Reachable v → Vehicle.Reachable v.shiftUp
  | shiftDown {v : Vehicle} : Vehicle.Reachable v → Vehicle.Reachable v.shiftDown

/-- The speed stored by `update`: the integration step followed by the drag
multiplication, for gear ratio `r`. -/
def Vehicle.speedAfter (v : Vehicle) (r : ℚ) (input : Input) (dt : ℚ) : ℚ :=
  (v.speed + (Engine.torqueCurve v.engine.rpm * r * input.throttle / v.mass) * dt) * v.drag

/-- What holds of every state of the running program: the constants set by the
constructors are never written, the gear index stays inside the table, and the
engine speed stays between idle and maximum. -/
structure Vehicle.Inv (v : Vehicle) : Prop where
  gears : v.transmission.gears = Transmission.new.gears
  order : v.transmission.order = Transmission.new.order
  index_nonneg : 0 ≤ v.transmission.currentIndex
  index_le : v.transmission.currentIndex ≤ 6
  mass : v.mass = 1200
  drag : v.drag = 0.98
  lateralGrip : v.lateralGrip = 1.0
  idleRPM : v.engine.idleRPM = 900
  maxRPM : v.engine.maxRPM = 7000
  rpm_ge : 900 ≤ v.engine.rpm
  rpm_le : v.engine.rpm ≤ 7000

/-! Section: Binary64 arithmetic

The program computes with IEEE 754 binary64 numbers, rounding every operation
to nearest, ties to even. The definitions of this section follow that
arithmetic; they are used where rounding, underflow or overflow decides a
property. Every finite binary64 value is an integer multiple of `2^-1074`, the
smallest positive subnormal, so a finite value is kept as that integer. -/

/-- A binary64 value: `fin n` is the finite value `n * 2^-1074`, `inf false`
and `inf true` are `+Infinity` and `-Infinity`, `nan` is `NaN`. The sign of
zero is not kept (`fin 0` stands for both zeros; the program never divides by a
computed zero). -/
inductive F64
  | fin (n : Int)
  | inf (negative : Bool)
  | nan
  deriving DecidableEq, Repr

/-- Position of the leading binary digit of `n`, for `1 ≤ n < 2^4096` (and 0
for `n = 0`), by binary search over the digit blocks. -/
def F64.log2 (n : Nat) : Nat :=
  ([2048, 1024, 512, 256, 128, 64, 32, 16, 8, 4, 2, 1].foldl
    (fun (s : Nat × Nat) (w : Nat) => if 2 ^ w ≤ s.1 then (s.1 / 2 ^ w, s.2 + w) else s)
    (n, 0)).2

/-- Round the non-negative rational `p / q` to the nearest integer with at
most 53 significant binary digits, ties to even: the candidates are the
multiples of `2^k` with `k = log2 (p / q) - 52`, truncated at 0 (below `2^53`
every integer is a candidate, which is the subnormal and lowest normal range). -/
def F64.roundNat (p q : Nat) : Nat :=
  let k := F64.log2 (p / q) - 52
  let d := q * 2 ^ k
  let f := p / d
  let r := p % d
  let m := if 2 * r < d then f else if d < 2 * r then f + 1 else if f % 2 = 0 then f else f + 1
  m * 2 ^ k

/-- The binary64 value nearest to `(p / q) * 2^-1074`; a rounded magnitude of
`2^1024` or more overflows to an infinity. -/
def F64.round (p : Int) (q : Nat) : F64 :=
  let m := F64.roundNat p.natAbs q
  if 2 ^ 2098 ≤ m then F64.inf (decide (p < 0))
  else if p < 0 then F64.fin (-(m : Int)) else F64.fin (m : Int)

/-- The binary64 value nearest to the rational `p / q`: the value of a numeric
literal. -/
def F64.ofRatio (p : Int) (q : Nat) : F64 :=
  F64.round (p * 2 ^ 1074) q

/-- Unary minus. -/
def F64.neg : F64 → F64
  | F64.fin n => F64.fin (-n)
  | F64.inf s => F64.inf (!s)
  | F64.nan => F64.nan

/-- Addition `a + b`. -/
def F64.add : F64 → F64 → F64
  | F64.fin a, F64.fin b => F64.round (a + b) 1
  | F64.fin _, F64.inf s => F64.inf s
  | F64.inf s, F64.fin _ => F64.inf s
  | F64.inf s, F64.inf t => if s = t then F64.inf s else F64.nan
  | _, _ => F64.nan

/-- Multiplication `a * b`. -/
def F64.mul : F64 → F64 → F64
  | F64.fin a, F64.fin b => F64.round (a * b) (2 ^ 1074)
  | F64.fin a, F64.inf s => if a = 0 then F64.nan else F64.inf (decide (a < 0) != s)
  | F64.inf s, F64.fin b => if b = 0 then F64.nan else F64.inf (s != decide (b < 0))
  | F64.inf s, F64.inf t => F64.inf (s != t)
  | _, _ => F64.nan

/-- Division `a / b`. A zero divisor is taken as `+0`. -/
def F64.div : F64 → F64 → F64
  | F64.fin a, F64.fin b =>
    if b = 0 then (if a = 0 then F64.nan else F64.inf (decide (a < 0)))
    else if b < 0 then F64.round (-(a * 2 ^ 1074)) b.natAbs
    else F64.round (a * 2 ^ 1074) b.natAbs
  | F64.fin _, F64.inf _ => F64.fin 0
  | F64.inf s, F64.fin b => F64.inf (s != decide (b < 0))
  | _, _ => F64.nan

/-- Comparison `a > b`; false when an argument is `NaN`. -/
def F64.gt : F64 → F64 → Bool
  | F64.fin a, F64.fin b => decide (b < a)
  | F64.fin _, F64.inf t => t
  | F64.inf s, F64.fin _ => !s
  | F64.inf s, F64.inf t => !s && t
  | _, _ => false

/-- Comparison `a !== b`; true when an argument is `NaN`. -/
def F64.ne : F64 → F64 → Bool
  | F64.nan, _ => true
  | _, F64.nan => true
  | a, b => decide (a ≠ b)

/-- Function `Math.abs`. -/
def F64.abs : F64 → F64
  | F64.fin n => F64.fin |n|
  | F64.inf _ => F64.inf false
  | F64.nan => F64.nan

/-- Function `Math.max` of two arguments; `NaN` when an argument is `NaN`. -/
def F64.max : F64 → F64 → F64
  | F64.nan, _ => F64.nan
  | _, F64.nan => F64.nan
  | a, b => if F64.gt b a then b else a

/-- Function `Math.min` of two arguments; `NaN` when an argument is `NaN`. -/
def F64.min : F64 → F64 → F64
  | F64.nan, _ => F64.nan
  | _, F64.nan => F64.nan
  | a, b => if F64.gt a b then b else a

instance : OfNat F64 n := ⟨F64.ofRatio n 1⟩

instance : OfScientific F64 :=
  ⟨fun m s e => if s then F64.ofRatio m (10 ^ e) else F64.ofRatio (m * 10 ^ e) 1⟩

instance : Neg F64 := ⟨F64.neg⟩

instance : Add F64 := ⟨F64.add⟩

instance : Sub F64 := ⟨fun a b => F64.add a (F64.neg b)⟩

instance : Mul F64 := ⟨F64.mul⟩

instance : Div F64 := ⟨F64.div⟩

/-- Method `Engine.torqueCurve(rpm)` in binary64:
`Math.max(0, -0.000002 * (rpm - 4000) ** 2 + 280)`, the square taken as the
correctly rounded product `d * d`. -/
def Engine.torqueCurve64 (rpm : F64) : F64 :=
  F64.max 0 (-0.000002 * ((rpm - 4000) * (rpm - 4000)) + 280)

/-- Fields of `class Input`, binary64. -/
structure Input64 where
  throttle : F64
  steer : F64
  deriving DecidableEq, Repr

/-- Fields of `class Engine`, binary64. -/
structure Engine64 where
  rpm : F64
  maxRPM : F64
  idleRPM : F64
  deriving DecidableEq, Repr

/-- Constructor `new Engine()`, binary64. -/
def Engine64.new : Engine64 :=
  { rpm := 1000, maxRPM := 7000, idleRPM := 900 }

/-- Fields of `class Transmission`, with binary64 ratios. -/
structure Transmission64 where
  gears : List (String × F64)
  order : List String
  currentIndex : Int
  deriving DecidableEq, Repr

/-- Constructor `new Transmission()`, binary64. -/
def Transmission64.new : Transmission64 :=
  { gears := [("R", -3.2), ("1", 3.5), ("2", 2.2), ("3", 1.5), ("4", 1.1),
              ("5", 0.9), ("N", 0)]
    order := ["R", "N", "1", "2", "3", "4", "5"]
    currentIndex := 1 }

/-- Getter `get gear()`; `none` is `undefined`. -/
def Transmission64.gear (t : Transmission64) : Option String :=
  if 0 ≤ t.currentIndex then t.order[t.currentIndex.toNat]? else none

/-- Method `ratio()`; `none` is `undefined`. -/
def Transmission64.ratio (t : Transmission64) : Option F64 :=
  match t.gear with
  | none => none
  | some g => t.gears.lookup g

/-- Method `shiftUp()`. -/
def Transmission64.shiftUp (t : Transmission64) : Transmission64 :=
  if t.currentIndex < (t.order.length : Int) - 1 then
    { t with currentIndex := t.currentIndex + 1 }
  else t

/-- Method `shiftDown()`. -/
def Transmission64.shiftDown (t : Transmission64) : Transmission64 :=
  if t.currentIndex > 0 then
    { t with currentIndex := t.currentIndex - 1 }
  else t

/-- Fields of `class Vehicle`, binary64. -/
structure Vehicle64 where
  engine : Engine64
  transmission : Transmission64
  speed : F64
  heading : F64
  angularVelocity : F64
  mass : F64
  drag : F64
  lateralGrip : F64
  deriving DecidableEq, Repr

/-- Constructor `new Vehicle()`, binary64. -/
def Vehicle64.new : Vehicle64 :=
  { engine := Engine64.new
    transmission := Transmission64.new
    speed := 0
    heading := 0
    angularVelocity := 0
    mass := 1200
    drag := 0.98
    lateralGrip := 1.0 }

/-- Method `Vehicle.update(input, dt)` in binary64, statement by statement. An
`undefined` ratio enters the arithmetic as `NaN` and is `!== 0`. -/
def Vehicle64.update (v : Vehicle64) (input : Input64) (dt : F64) : Vehicle64 :=
  let ratio : F64 := (v.transmission.ratio).getD F64.nan
  let torque := Engine.torqueCurve64 v.engine.rpm
  let driveForce := torque * ratio * input.throttle
  -- Inertia
  let speed1 := v.speed + (driveForce / v.mass) * dt
  let speed2 := speed1 * v.drag
  -- RPM sync
  let engine : Engine64 :=
    if F64.ne ratio 0 then
      { v.engine with
        rpm := F64.max v.engine.idleRPM
          (F64.min v.engine.maxRPM (F64.abs (speed2 * ratio * 60))) }
    else v.engine
  -- Steering & drifting
  let lateralForce := F64.abs (speed2 * input.steer)
  let slip : Bool := F64.gt lateralForce (v.lateralGrip * 15)
  let heading :=
    if slip then v.heading + input.steer * speed2 * 0.04
    else v.heading + input.steer * speed2 * 0.02
  { v with engine := engine, speed := speed2, heading := heading }

/-- The transmission method `shiftUp()` called on `vehicle.transmission`. -/
def Vehicle64.shiftUp (v : Vehicle64) : Vehicle64 :=
  { v with transmission := v.transmission.shiftUp }

/-- The transmission method `shiftDown()` called on `vehicle.transmission`. -/
def Vehicle64.shiftDown (v : Vehicle64) : Vehicle64 :=
  { v with transmission := v.transmission.shiftDown }

/-! Section: Shared lemmas -/

/-- Result of `update` when the ratio lookup succeeds and the mass is not 0. -/
theorem Vehicle.update_eq (v : Vehicle) (input : Input) (dt r : ℚ)
    (hr : v.transmission.ratio = some r) (hm : v.mass ≠ 0) :
    v.update input dt = some
      { v with
        engine :=
          if r ≠ 0 then
            { v.engine with
              rpm := max v.engine.idleRPM
                (min v.engine.maxRPM |v.speedAfter r input dt * r * 60|) }
          else v.engine
        speed := v.speedAfter r input dt
        heading :=
          if |v.speedAfter r input dt * input.steer| > v.lateralGrip * 15 then
            v.heading + input.steer * v.speedAfter r input dt * 0.04
          else v.heading + input.steer * v.speedAfter r input dt * 0.02 } := by
  simp only [Vehicle.update, hr, if_neg hm, Vehicle.speedAfter, decide_eq_true_eq]

/-- With the constructed tables and an index from 0 to 6 the ratio lookup
succeeds. -/
theorem Transmission.ratio_isSome (t : Transmission)
    (hg : t.gears = Transmission.new.gears) (ho : t.order = Transmission.new.order)
    (h0 : 0 ≤ t.currentIndex) (h6 : t.currentIndex ≤ 6) :
    ∃ r, t.ratio = some r := by
  have h7 : t.currentIndex = 0 ∨ t.currentIndex = 1 ∨ t.currentIndex = 2 ∨
      t.currentIndex = 3 ∨ t.currentIndex = 4 ∨ t.currentIndex = 5 ∨
      t.currentIndex = 6 := by omega
  unfold Transmission.ratio Transmission.gear
  rw [hg, ho, if_pos h0]
  rcases h7 with h | h | h | h | h | h | h <;> rw [h] <;>
    simp [Transmission.new, List.lookup]

theorem Vehicle.Inv.new : Vehicle.new.Inv := by
  constructor <;> norm_num [Vehicle.new, Engine.new, Transmission.new]

theorem Vehicle.Inv.shiftUp {v : Vehicle} (h : v.Inv) : v.shiftUp.Inv := by
  have hlen : ((v.transmission.order.length : Int)) - 1 = 6 := by rw [h.order]; rfl
  have hi : 0 ≤ v.transmission.shiftUp.currentIndex ∧
      v.transmission.shiftUp.currentIndex ≤ 6 := by
    unfold Transmission.shiftUp
    rw [hlen]
    have := h.index_nonneg
    have := h.index_le
    split_ifs <;> (try simp only) <;> omega
  have hgo : v.transmission.shiftUp.gears = v.transmission.gears ∧
      v.transmission.shiftUp.order = v.transmission.order := by
    unfold Transmission.shiftUp
    split_ifs <;> exact ⟨rfl, rfl⟩
  exact ⟨hgo.1.trans h.gears, hgo.2.trans h.order, hi.1, hi.2, h.mass, h.drag,
    h.lateralGrip, h.idleRPM, h.maxRPM, h.rpm_ge, h.rpm_le⟩

theorem Vehicle.Inv.shiftDown {v : Vehicle} (h : v.Inv) : v.shiftDown.Inv := by
  have hi : 0 ≤ v.transmission.shiftDown.currentIndex ∧
      v.transmission.shiftDown.currentIndex ≤ 6 := by
    unfold Transmission.shiftDown
    have := h.index_nonneg
    have := h.index_le
    split_ifs <;> (try simp only) <;> omega
  have hgo : v.transmission.shiftDown.gears = v.transmission.gears ∧
      v.transmission.shiftDown.order = v.transmission.order := by
    unfold Transmission.shiftDown
    split_ifs <;> exact ⟨rfl, rfl⟩
  exact ⟨hgo.1.trans h.gears, hgo.2.trans h.order, hi.1, hi.2, h.mass, h.drag,
    h.lateralGrip, h.idleRPM, h.maxRPM, h.rpm_ge, h.rpm_le⟩

theorem Vehicle.Inv.mass_ne_zero {v : Vehicle} (h : v.Inv) : v.mass ≠ 0 := by
  rw [h.mass]; norm_num

/-- On a state satisfying the invariant `update` returns a state. -/
theorem Vehicle.Inv.update_isSome {v : Vehicle} (h : v.Inv) (input : Input) (dt : ℚ) :
    ∃ v1, v.update input dt = some v1 := by
  obtain ⟨r, hr⟩ := Transmission.ratio_isSome v.transmission h.gears h.order
    h.index_nonneg h.index_le
  exact ⟨_, Vehicle.update_eq v input dt r hr h.mass_ne_zero⟩

theorem Vehicle.Inv.update {v v1 : Vehicle} (h : v.Inv) (input : Input) (dt : ℚ)
    (hu : v.update input dt = some v1) : v1.Inv := by
  obtain ⟨r, hr⟩ := Transmission.ratio_isSome v.transmission h.gears h.order
    h.index_nonneg h.index_le
  rw [Vehicle.update_eq v input dt r hr h.mass_ne_zero] at hu
  cases hu
  refine ⟨h.gears, h.order, h.index_nonneg, h.index_le, h.mass, h.drag,
    h.lateralGrip, ?_, ?_, ?_, ?_⟩
  · show Engine.idleRPM (if r ≠ 0 then _ else _) = 900
    split_ifs <;> exact h.idleRPM
  · show Engine.maxRPM (if r ≠ 0 then _ else _) = 7000
    split_ifs <;> exact h.maxRPM
  · show 900 ≤ Engine.rpm (if r ≠ 0 then _ else _)
    by_cases hr0 : r = 0
    · rw [if_neg (not_not.mpr hr0)]
      exact h.rpm_ge
    · rw [if_pos hr0]
      show 900 ≤ max v.engine.idleRPM _
      rw [h.idleRPM]
      exact le_max_left _ _
  · show Engine.rpm (if r ≠ 0 then _ else _) ≤ 7000
    by_cases hr0 : r = 0
    · rw [if_neg (not_not.mpr hr0)]
      exact h.rpm_le
    · rw [if_pos hr0]
      show max v.engine.idleRPM (min v.engine.maxRPM _) ≤ 7000
      rw [h.idleRPM, h.maxRPM]
      exact max_le (by norm_num) (min_le_left _ _)

theorem Vehicle.Reachable.inv {v : Vehicle} (h : v.Reachable) : v.Inv := by
  induction h with
  | init => exact Vehicle.Inv.new
  | update input dt _ hu ih => exact ih.update input dt hu
  | shiftUp _ ih => exact ih.shiftUp
  | shiftDown _ ih => exact ih.shiftDown

/-- With the constructed tables and an index from 0 to 6 the gear and its
ratio are one of the seven pairs of the table. -/
theorem Transmission.gear_ratio_cases (t : Transmission)
    (hg : t.gears = Transmission.new.gears) (ho : t.order = Transmission.new.order)
    (h0 : 0 ≤ t.currentIndex) (h6 : t.currentIndex ≤ 6) :
    (t.gear = some "R" ∧ t.ratio = some (-3.2)) ∨
      (t.gear = some "N" ∧ t.ratio = some 0) ∨
      (t.gear = some "1" ∧ t.ratio = some 3.5) ∨
      (t.gear = some "2" ∧ t.ratio = some 2.2) ∨
      (t.gear = some "3" ∧ t.ratio = some 1.5) ∨
      (t.gear = some "4" ∧ t.ratio = some 1.1) ∨
      (t.gear = some "5" ∧ t.ratio = some 0.9) := by
  have h7 : t.currentIndex = 0 ∨ t.currentIndex = 1 ∨ t.currentIndex = 2 ∨
      t.currentIndex = 3 ∨ t.currentIndex = 4 ∨ t.currentIndex = 5 ∨
      t.currentIndex = 6 := by omega
  unfold Transmission.ratio Transmission.gear
  rw [hg, ho, if_pos h0]
  rcases h7 with h | h | h | h | h | h | h <;> rw [h] <;>
    simp [Transmission.new, List.lookup]

/-- Every transmission state reached by shifting keeps the constructed tables
and an index from 0 to 6. -/
theorem Transmission.Reachable.tables_index {t : Transmission} (h : t.Reachable) :
    t.gears = Transmission.new.gears ∧ t.order = Transmission.new.order ∧
      0 ≤ t.currentIndex ∧ t.currentIndex ≤ 6 := by
  induction h with
  | init => exact ⟨rfl, rfl, by decide, by decide⟩
  | @shiftUp t _ ih =>
    obtain ⟨hg, ho, h0, h6⟩ := ih
    have hlen : ((t.order.length : Int)) - 1 = 6 := by rw [ho]; rfl
    unfold Transmission.shiftUp
    rw [hlen]
    split_ifs
    · exact ⟨hg, ho, by simp only; omega, by simp only; omega⟩
    · exact ⟨hg, ho, h0, h6⟩
  | @shiftDown t _ ih =>
    obtain ⟨hg, ho, h0, h6⟩ := ih
    unfold Transmission.shiftDown
    split_ifs
    · exact ⟨hg, ho, by simp only; omega, by simp only; omega⟩
    · exact ⟨hg, ho, h0, h6⟩

/-- On the operating range from 900 to 7000 RPM the torque is at least
260.78 and is the value of the parabola. -/
theorem torqueCurve_ge_of_range (rpm : ℚ) (h1 : 900 ≤ rpm) (h2 : rpm ≤ 7000) :
    260.78 ≤ -0.000002 * (rpm - 4000) ^ 2 + 280 ∧
      Engine.torqueCurve rpm = -0.000002 * (rpm - 4000) ^ 2 + 280 := by
  have hp : 260.78 ≤ -0.000002 * (rpm - 4000) ^ 2 + 280 := by
    norm_num
    nlinarith
  refine ⟨hp, ?_⟩
  unfold Engine.torqueCurve
  apply max_eq_right
  have : (0 : ℚ) ≤ 260.78 := by norm_num
  exact le_trans this hp

/-- Sign of the ratio by gear: negative in "R", positive in "1" to "5". -/
theorem Transmission.ratio_sign (t : Transmission) (r : ℚ)
    (hg : t.gears = Transmission.new.gears) (ho : t.order = Transmission.new.order)
    (h0 : 0 ≤ t.currentIndex) (h6 : t.currentIndex ≤ 6) (hr : t.ratio = some r) :
    (t.gear = some "R" → r < 0) ∧
      (∀ g ∈ ["1", "2", "3", "4", "5"], t.gear = some g → 0 < r) := by
  rcases Transmission.gear_ratio_cases t hg ho h0 h6 with
    ⟨h1, h2⟩ | ⟨h1, h2⟩ | ⟨h1, h2⟩ | ⟨h1, h2⟩ | ⟨h1, h2⟩ | ⟨h1, h2⟩ | ⟨h1, h2⟩ <;>
  · rw [hr] at h2
    have hr1 := Option.some.inj h2
    subst hr1
    rw [h1]
    refine ⟨fun h => ?_, fun g hgm h => ?_⟩
    · first
        | (norm_num; done)
        | exact absurd (Option.some.inj h) (by decide)
    · first
        | (norm_num; done)
        | (have hgg := Option.some.inj h
           subst hgg
           simp at hgm)

/-- The ranges of the two input fields are kept by `onKey`. -/
theorem Input.onKey_range (i : Input) (key : String) (down : Bool)
    (h : (i.throttle = 0 ∨ i.throttle = 1) ∧
      (i.steer = -1 ∨ i.steer = 0 ∨ i.steer = 1)) :
    ((i.onKey key down).throttle = 0 ∨ (i.onKey key down).throttle = 1) ∧
      ((i.onKey key down).steer = -1 ∨ (i.onKey key down).steer = 0 ∨
        (i.onKey key down).steer = 1) := by
  unfold Input.onKey
  cases down <;> split_ifs <;> simp_all

/-- The ranges are kept along any sequence of key events. -/
theorem Input.foldl_range (events : List (String × Bool)) (i : Input)
    (h : (i.throttle = 0 ∨ i.throttle = 1) ∧
      (i.steer = -1 ∨ i.steer = 0 ∨ i.steer = 1)) :
    ((events.foldl (fun i e => i.onKey e.1 e.2) i).throttle = 0 ∨
        (events.foldl (fun i e => i.onKey e.1 e.2) i).throttle = 1) ∧
      ((events.foldl (fun i e => i.onKey e.1 e.2) i).steer = -1 ∨
        (events.foldl (fun i e => i.onKey e.1 e.2) i).steer = 0 ∨
        (events.foldl (fun i e => i.onKey e.1 e.2) i).steer = 1) := by
  induction events generalizing i with
  | nil => exact h
  | cons e es ih => exact ih (i.onKey e.1 e.2) (Input.onKey_range i e.1 e.2 h)

/-- The literal `4000` is the finite value `4000 * 2^1074 * 2^-1074`. -/
theorem F64.lit_4000 : (4000 : F64) = F64.fin (4000 * 2 ^ 1074) := by decide!

/-- Rounding of 0 gives the finite value 0. -/
theorem F64.round_zero (q : Nat) : F64.round 0 q = F64.fin 0 := by
  have hl : F64.log2 0 = 0 := by decide!
  have hm : F64.roundNat 0 q = 0 := by
    unfold F64.roundNat
    simp only [Nat.zero_div, Nat.zero_mod, hl]
    split_ifs <;> simp_all
  unfold F64.round
  simp only [Int.natAbs_zero, hm]
  have key : ∀ w : Nat, ¬ (2 ^ w ≤ 0) := fun w => Nat.not_le.mpr (Nat.two_pow_pos w)
  split_ifs with h1 h2
  · exact absurd h1 (key _)
  · exact absurd h2 (lt_irrefl _)
  · rfl

/-- Rounding is symmetric under negation. -/
theorem F64.round_neg (p : Int) (q : Nat) : F64.round (-p) q = F64.neg (F64.round p q) := by
  rcases lt_trichotomy p 0 with h | h | h
  · have h1 : ¬ (-p < 0) := by omega
    unfold F64.round
    simp only [Int.natAbs_neg, h, h1, decide_True, decide_False, if_true, if_false]
    split_ifs <;> simp [F64.neg]
  · subst h
    rw [neg_zero, F64.round_zero]
    rfl
  · have h1 : -p < 0 := by omega
    have h2 : ¬ (p < 0) := by omega
    unfold F64.round
    simp only [Int.natAbs_neg, h1, h2, decide_True, decide_False, if_true, if_false]
    split_ifs <;> simp [F64.neg]

/-- The product of a value with itself does not depend on its sign. -/
theorem F64.mul_neg_neg (x : F64) : F64.neg x * F64.neg x = x * x := by
  cases x with
  | fin n =>
    show F64.mul (F64.neg (F64.fin n)) (F64.neg (F64.fin n)) = F64.mul (F64.fin n) (F64.fin n)
    simp only [F64.neg, F64.mul, neg_mul_neg]
  | inf s => cases s <;> rfl
  | nan => rfl

/-- Negation of a finite value. -/
theorem F64.neg_fin (n : Int) : F64.neg (F64.fin n) = F64.fin (-n) := rfl

/-- Subtraction is addition of the negated value. -/
theorem F64.sub_def (a b : F64) : a - b = F64.add a (F64.neg b) := rfl

/-! Section: Torque curve -/

/-- C6 (counterexample): at 3000 RPM, below 3352, the torque is 278, not 0; at
5000 RPM, above 4648, it is 278 as well. -/
theorem torqueCurve_inside_spec_bounds :
    (3000 : ℚ) < 3352 ∧ Engine.torqueCurve 3000 = 278 ∧ Engine.torqueCurve 3000 ≠ 0 ∧
      (4648 : ℚ) < 5000 ∧ Engine.torqueCurve 5000 = 278 ∧ Engine.torqueCurve 5000 ≠ 0 := by
  norm_num [Engine.torqueCurve]

/-- C6 (amended): `torqueCurve rpm` is 0 for every rpm at most -7833 and every
rpm at least 15833; these bound the positive range of the curve, about
(-7832.16, 15832.16): at -7832 and at 15832 the torque is still positive. -/
theorem torqueCurve_zero_outside (rpm : ℚ) (h : rpm ≤ -7833 ∨ 15833 ≤ rpm) :
    Engine.torqueCurve rpm = 0 ∧
      0 < Engine.torqueCurve (-7832) ∧ 0 < Engine.torqueCurve 15832 := by
  refine ⟨?_, by norm_num [Engine.torqueCurve], by norm_num [Engine.torqueCurve]⟩
  unfold Engine.torqueCurve
  apply max_eq_left
  norm_num
  rcases h with h | h <;> nlinarith

/-- C6 (witness): at -7833 RPM and at 15833 RPM the torque is 0. -/
theorem torqueCurve_zero_outside_witness :
    Engine.torqueCurve (-7833) = 0 ∧ Engine.torqueCurve 15833 = 0 :=
  ⟨(torqueCurve_zero_outside (-7833) (Or.inl (le_refl _))).1,
    (torqueCurve_zero_outside 15833 (Or.inr (le_refl _))).1⟩

/-- C7: the torque is never negative. -/
theorem torqueCurve_nonneg (rpm : ℚ) : 0 ≤ Engine.torqueCurve rpm :=
  le_max_left _ _

/-- C8 (counterexample): in binary64 the torque at 4000.0001 RPM and at
3999.9999 RPM is exactly 280: the decrease `0.000002 * d^2`, about `2e-14`, is
less than half the spacing of binary64 values at 280 and is lost in the
addition. -/
theorem torqueCurve64_flat_near_peak :
    Engine.torqueCurve64 4000.0001 = 280 ∧ (4000.0001 : F64) ≠ 4000 ∧
      Engine.torqueCurve64 3999.9999 = 280 ∧ (3999.9999 : F64) ≠ 4000 := by
  decide!

/-- C8 (amended): the torque at 4000 RPM is exactly 280, in exact arithmetic
and in binary64, and no torque exceeds 280. -/
theorem torqueCurve_peak :
    Engine.torqueCurve 4000 = 280 ∧ Engine.torqueCurve64 4000 = 280 ∧
      ∀ rpm : ℚ, Engine.torqueCurve rpm ≤ 280 := by
  refine ⟨by norm_num [Engine.torqueCurve], by decide!, fun rpm => ?_⟩
  unfold Engine.torqueCurve
  apply max_le
  · norm_num
  · have := sq_nonneg (rpm - 4000)
    norm_num
    positivity

/-- C9 (counterexample): in binary64, with `x = 124.9`, `4000 - x` is 3875.1
and `4000 + x` is 4124.9 after rounding, and the torque is 279.96879998 at the
first and 279.96879998000003 at the second. -/
theorem torqueCurve64_asymmetric :
    (4000 - 124.9 : F64) = 3875.1 ∧ (4000 + 124.9 : F64) = 4124.9 ∧
      Engine.torqueCurve64 (4000 - 124.9) = 279.96879998 ∧
      Engine.torqueCurve64 (4000 + 124.9) = 279.96879998000003 ∧
      Engine.torqueCurve64 (4000 - 124.9) ≠ Engine.torqueCurve64 (4000 + 124.9) := by
  decide!

/-- C9 (amended): the torque is the same at two engine speeds `a` and `b` that
mirror each other about 4000 exactly, `a + b = 8000`: in exact arithmetic, and
in binary64 for finite values `na * 2^-1074` and `nb * 2^-1074`. -/
theorem torqueCurve_mirror (a b : ℚ) (na nb : Int) (h : a + b = 8000)
    (hn : na + nb = 2 * (4000 * 2 ^ 1074)) :
    Engine.torqueCurve a = Engine.torqueCurve b ∧
      Engine.torqueCurve64 (F64.fin na) = Engine.torqueCurve64 (F64.fin nb) := by
  constructor
  · unfold Engine.torqueCurve
    have hb : b = 8000 - a := by linarith
    have hsq : (b - 4000) ^ 2 = (a - 4000) ^ 2 := by rw [hb]; ring
    rw [hsq]
  · have hd : (F64.fin nb - 4000 : F64) = F64.neg (F64.fin na - 4000) := by
      rw [F64.sub_def, F64.sub_def, F64.lit_4000]
      generalize (4000 * 2 ^ 1074 : Int) = c at hn
      simp only [F64.neg_fin, F64.add]
      rw [← F64.round_neg]
      congr 1
      omega
    unfold Engine.torqueCurve64
    rw [hd, F64.mul_neg_neg]

/-- C9 (witness): 3875 and 4125 RPM. -/
theorem torqueCurve_mirror_witness :
    Engine.torqueCurve 3875 = Engine.torqueCurve 4125 ∧
      Engine.torqueCurve64 (F64.fin (3875 * 2 ^ 1074))
        = Engine.torqueCurve64 (F64.fin (4125 * 2 ^ 1074)) :=
  torqueCurve_mirror 3875 4125 (3875 * 2 ^ 1074) (4125 * 2 ^ 1074) (by norm_num) (by ring)

/-! Section: Transmission -/

/-- C10: with the seven-gear order and an index from 0 to 6, `shiftUp` sets the
index to `min (currentIndex + 1) 6` and writes nothing else; at index 6 (gear
"5") it changes nothing, so any number of repeated calls from gear "5" leaves
the state, and the gear "5", as they are. -/
theorem shiftUp_currentIndex (t : Transmission)
    (horder : t.order = ["R", "N", "1", "2", "3", "4", "5"])
    (h0 : 0 ≤ t.currentIndex) (h6 : t.currentIndex ≤ 6) :
    t.shiftUp.currentIndex = min (t.currentIndex + 1) 6 ∧
      t.shiftUp.order = t.order ∧ t.shiftUp.gears = t.gears ∧
      (t.currentIndex < 6 → t.shiftUp.currentIndex = t.currentIndex + 1) ∧
      (t.gear = some "5" → ∀ n : Nat, 1 ≤ n →
        Transmission.shiftUp^[n] t = t ∧ (Transmission.shiftUp^[n] t).gear = some "5") := by
  have hlen : ((t.order.length : Int)) - 1 = 6 := by rw [horder]; rfl
  refine ⟨?_, ?_, ?_, ?_, ?_⟩
  · unfold Transmission.shiftUp
    rw [hlen]
    split_ifs with h
    · simp only
      omega
    · omega
  · unfold Transmission.shiftUp
    split_ifs <;> rfl
  · unfold Transmission.shiftUp
    split_ifs <;> rfl
  · intro h
    unfold Transmission.shiftUp
    rw [hlen, if_pos h]
  · intro hg n _
    have hidx : t.currentIndex = 6 := by
      have h7 : t.currentIndex = 0 ∨ t.currentIndex = 1 ∨ t.currentIndex = 2 ∨
          t.currentIndex = 3 ∨ t.currentIndex = 4 ∨ t.currentIndex = 5 ∨
          t.currentIndex = 6 := by omega
      unfold Transmission.gear at hg
      rw [horder, if_pos h0] at hg
      rcases h7 with h | h | h | h | h | h | h <;> rw [h] at hg <;> first | exact h | simp at hg
    have hfix : t.shiftUp = t := by
      unfold Transmission.shiftUp
      rw [hlen, if_neg (by omega)]
    have hit : Transmission.shiftUp^[n] t = t := Function.iterate_fixed hfix n
    rw [hit]
    exact ⟨rfl, hg⟩

/-- C10 (witness): the theorem at gear "5" of the constructed table. -/
theorem shiftUp_currentIndex_witness :
    ({ Transmission.new with currentIndex := 6 } : Transmission).shiftUp.currentIndex
        = min ((6 : Int) + 1) 6 ∧
      (Transmission.shiftUp^[3] { Transmission.new with currentIndex := 6 }).gear
        = some "5" := by
  have h := shiftUp_currentIndex { Transmission.new with currentIndex := 6 } rfl
    (by decide) (by decide)
  exact ⟨h.1, (h.2.2.2.2 rfl 3 (by decide)).2⟩

/-- C11: with an index from 0 to 6, `shiftDown` sets the index to
`max (currentIndex - 1) 0` and writes nothing else; at index 0 (gear "R") it
changes nothing, so any number of repeated calls from gear "R" leaves the
state, and the gear "R", as they are. -/
theorem shiftDown_currentIndex (t : Transmission)
    (horder : t.order = ["R", "N", "1", "2", "3", "4", "5"])
    (h0 : 0 ≤ t.currentIndex) (h6 : t.currentIndex ≤ 6) :
    t.shiftDown.currentIndex = max (t.currentIndex - 1) 0 ∧
      t.shiftDown.order = t.order ∧ t.shiftDown.gears = t.gears ∧
      (0 < t.currentIndex → t.shiftDown.currentIndex = t.currentIndex - 1) ∧
      (t.gear = some "R" → ∀ n : Nat, 1 ≤ n →
        Transmission.shiftDown^[n] t = t ∧
          (Transmission.shiftDown^[n] t).gear = some "R") := by
  refine ⟨?_, ?_, ?_, ?_, ?_⟩
  · unfold Transmission.shiftDown
    split_ifs with h
    · simp only
      omega
    · omega
  · unfold Transmission.shiftDown
    split_ifs <;> rfl
  · unfold Transmission.shiftDown
    split_ifs <;> rfl
  · intro h
    unfold Transmission.shiftDown
    rw [if_pos h]
  · intro hg n _
    have hidx : t.currentIndex = 0 := by
      have h7 : t.currentIndex = 0 ∨ t.currentIndex = 1 ∨ t.currentIndex = 2 ∨
          t.currentIndex = 3 ∨ t.currentIndex = 4 ∨ t.currentIndex = 5 ∨
          t.currentIndex = 6 := by omega
      unfold Transmission.gear at hg
      rw [horder, if_pos h0] at hg
      rcases h7 with h | h | h | h | h | h | h <;> rw [h] at hg <;>
        first | exact h | simp at hg
    have hfix : t.shiftDown = t := by
      unfold Transmission.shiftDown
      rw [if_neg (by omega)]
    have hit : Transmission.shiftDown^[n] t = t := Function.iterate_fixed hfix n
    rw [hit]
    exact ⟨rfl, hg⟩

/-- C11 (witness): the theorem at gear "R" of the constructed table. -/
theorem shiftDown_currentIndex_witness :
    ({ Transmission.new with currentIndex := 0 } : Transmission).shiftDown.currentIndex
        = max ((0 : Int) - 1) 0 ∧
      (Transmission.shiftDown^[3] { Transmission.new with currentIndex := 0 }).gear
        = some "R" := by
  have h := shiftDown_currentIndex { Transmission.new with currentIndex := 0 } rfl
    (by decide) (by decide)
  exact ⟨h.1, (h.2.2.2.2 rfl 3 (by decide)).2⟩

/-- C12: in every transmission state reachable from `new Transmission()` by
`shiftUp` and `shiftDown` calls the index is inside the array of seven labels,
the gear lookup gives a label of `order`, the ratio lookup gives the value the
table holds for that label, one of the seven table values, and the ratio is 0
exactly when the gear is "N". -/
theorem transmission_reachable_lookup (t : Transmission) (h : t.Reachable) :
    0 ≤ t.currentIndex ∧ t.currentIndex < (t.order.length : Int) ∧ t.order.length = 7 ∧
      ∃ g r, t.gear = some g ∧ t.ratio = some r ∧ g ∈ t.order ∧
        (g, r) ∈ [("R", (-3.2 : ℚ)), ("N", 0), ("1", 3.5), ("2", 2.2), ("3", 1.5),
          ("4", 1.1), ("5", 0.9)] ∧
        (r = 0 ↔ g = "N") := by
  obtain ⟨hg, ho, h0, h6⟩ := h.tables_index
  have hlen : t.order.length = 7 := by rw [ho]; rfl
  refine ⟨h0, by rw [hlen]; omega, hlen, ?_⟩
  rcases Transmission.gear_ratio_cases t hg ho h0 h6 with
    ⟨h1, h2⟩ | ⟨h1, h2⟩ | ⟨h1, h2⟩ | ⟨h1, h2⟩ | ⟨h1, h2⟩ | ⟨h1, h2⟩ | ⟨h1, h2⟩ <;>
  · refine ⟨_, _, h1, h2, ?_, ?_, ?_⟩
    · rw [ho]; simp [Transmission.new]
    · simp
    · norm_num <;> decide

/-- C12 (witness): the state after two `shiftUp` calls and one `shiftDown`. -/
theorem transmission_reachable_lookup_witness :
    Transmission.new.shiftUp.shiftUp.shiftDown.Reachable ∧
      0 ≤ Transmission.new.shiftUp.shiftUp.shiftDown.currentIndex ∧
      Transmission.new.shiftUp.shiftUp.shiftDown.currentIndex < 7 :=
  have hr : Transmission.new.shiftUp.shiftUp.shiftDown.Reachable :=
    Transmission.Reachable.shiftDown
      (Transmission.Reachable.shiftUp (Transmission.Reachable.shiftUp Transmission.Reachable.init))
  ⟨hr, (transmission_reachable_lookup _ hr).1, (transmission_reachable_lookup _ hr).2.1⟩

/-- C13: a new transmission, and the transmission of a new vehicle, is in gear
"N" (index 1) and its ratio is 0. -/
theorem new_gear_neutral :
    Transmission.new.currentIndex = 1 ∧ Transmission.new.gear = some "N" ∧
      Transmission.new.ratio = some 0 ∧
      Vehicle.new.transmission.gear = some "N" ∧ Vehicle.new.transmission.ratio = some 0 :=
  ⟨rfl, rfl, rfl, rfl, rfl⟩

/-! Section: Vehicle update -/

/-- C1: when the gear ratio is `r` (and the mass is not 0), `update` stores
the speed `(speed + (torqueCurve rpm * r * throttle / mass) * dt) * drag`, with
the torque read at the engine speed on entry; with the constructed mass 1200
and drag 0.98 the constants appear as such. -/
theorem update_speed (v : Vehicle) (input : Input) (dt r : ℚ)
    (hr : v.transmission.ratio = some r) (hm : v.mass ≠ 0) :
    ∃ v1, v.update input dt = some v1 ∧
      v1.speed =
        (v.speed + (Engine.torqueCurve v.engine.rpm * r * input.throttle / v.mass) * dt)
          * v.drag ∧
      (v.mass = 1200 → v.drag = 0.98 →
        v1.speed =
          (v.speed + (Engine.torqueCurve v.engine.rpm * r * input.throttle / 1200) * dt)
            * 0.98) := by
  refine ⟨_, Vehicle.update_eq v input dt r hr hm, rfl, ?_⟩
  intro h1 h2
  show v.speedAfter r input dt = _
  unfold Vehicle.speedAfter
  rw [h1, h2]

/-- C1 (witness): first gear of a new vehicle, full throttle, one frame of
1/60 s. -/
theorem update_speed_witness :
    Vehicle.new.shiftUp.transmission.ratio = some 3.5 ∧ Vehicle.new.shiftUp.mass ≠ 0 ∧
      ∃ v1, Vehicle.new.shiftUp.update ⟨1, 0⟩ (1 / 60) = some v1 ∧
        v1.speed = (0 + (Engine.torqueCurve 1000 * 3.5 * 1 / 1200) * (1 / 60)) * 0.98 :=
  ⟨rfl, by norm_num [Vehicle.new, Vehicle.shiftUp],
    (update_speed Vehicle.new.shiftUp ⟨1, 0⟩ (1 / 60) 3.5 rfl
      (by norm_num [Vehicle.new, Vehicle.shiftUp])).imp
      fun _ h => ⟨h.1, h.2.2 rfl rfl⟩⟩

/-- C2: when the gear ratio `r` is not 0, `update` stores the engine speed
`max idleRPM (min maxRPM |speed_after * r * 60|)`, where `speed_after` is the
speed stored by the same call; with the constructed bounds this is
`max 900 (min 7000 |speed_after * r * 60|)`. -/
theorem update_rpm_sync (v : Vehicle) (input : Input) (dt r : ℚ)
    (hr : v.transmission.ratio = some r) (hm : v.mass ≠ 0) (hr0 : r ≠ 0) :
    ∃ v1, v.update input dt = some v1 ∧
      v1.speed =
        (v.speed + (Engine.torqueCurve v.engine.rpm * r * input.throttle / v.mass) * dt)
          * v.drag ∧
      v1.engine.rpm = max v.engine.idleRPM (min v.engine.maxRPM |v1.speed * r * 60|) ∧
      (v.engine.idleRPM = 900 → v.engine.maxRPM = 7000 →
        v1.engine.rpm = max 900 (min 7000 |v1.speed * r * 60|)) := by
  have hrpm : (if r ≠ 0 then
        ({ v.engine with
            rpm := max v.engine.idleRPM
              (min v.engine.maxRPM |v.speedAfter r input dt * r * 60|) } : Engine)
      else v.engine).rpm
      = max v.engine.idleRPM (min v.engine.maxRPM |v.speedAfter r input dt * r * 60|) := by
    rw [if_pos hr0]
  refine ⟨_, Vehicle.update_eq v input dt r hr hm, rfl, hrpm, ?_⟩
  intro h1 h2
  rw [← h1, ← h2]
  exact hrpm

/-- C2 (witness): a vehicle in first gear at 10 m/s, no throttle: the speed
becomes 9.8 and the engine speed `|9.8 * 3.5 * 60| = 2058`. -/
theorem update_rpm_sync_witness :
    ∃ v1, ({ Vehicle.new.shiftUp with speed := 10 } : Vehicle).update ⟨0, 0⟩ (1 / 60) = some v1 ∧
      v1.speed = 9.8 ∧ v1.engine.rpm = 2058 := by
  obtain ⟨v1, hu, hs, _, hrpm⟩ :=
    update_rpm_sync { Vehicle.new.shiftUp with speed := 10 } ⟨0, 0⟩ (1 / 60) 3.5 rfl
      (by norm_num [Vehicle.new, Vehicle.shiftUp]) (by norm_num)
  have hs1 : v1.speed = 9.8 := by
    rw [hs]
    norm_num [Vehicle.new, Vehicle.shiftUp]
  refine ⟨v1, hu, hs1, ?_⟩
  rw [hrpm rfl rfl, hs1]
  norm_num [abs_of_nonneg]

/-- C3: in every state reachable from `new Vehicle()` by `update`, `shiftUp`
and `shiftDown` calls, the bounds are still 900 and 7000 and
`idleRPM ≤ rpm ≤ maxRPM`; and `update` returns a state on every input, so no
call leaves the reachable states. -/
theorem reachable_rpm_bounds (v : Vehicle) (h : v.Reachable) :
    v.engine.idleRPM = 900 ∧ v.engine.maxRPM = 7000 ∧
      v.engine.idleRPM ≤ v.engine.rpm ∧ v.engine.rpm ≤ v.engine.maxRPM ∧
      900 ≤ v.engine.rpm ∧ v.engine.rpm ≤ 7000 ∧
      ∀ (input : Input) (dt : ℚ), ∃ v1, v.update input dt = some v1 ∧ v1.Reachable := by
  have hi := h.inv
  refine ⟨hi.idleRPM, hi.maxRPM, ?_, ?_, hi.rpm_ge, hi.rpm_le, ?_⟩
  · rw [hi.idleRPM]; exact hi.rpm_ge
  · rw [hi.maxRPM]; exact hi.rpm_le
  · intro input dt
    obtain ⟨v1, hu⟩ := hi.update_isSome input dt
    exact ⟨v1, hu, Vehicle.Reachable.update input dt h hu⟩

/-- C3 (witness): the state after shifting a new vehicle into first gear. -/
theorem reachable_rpm_bounds_witness :
    Vehicle.new.shiftUp.Reachable ∧
      (900 : ℚ) ≤ Vehicle.new.shiftUp.engine.rpm ∧ Vehicle.new.shiftUp.engine.rpm ≤ 7000 :=
  ⟨Vehicle.Reachable.shiftUp Vehicle.Reachable.init,
    (reachable_rpm_bounds _ (Vehicle.Reachable.shiftUp Vehicle.Reachable.init)).2.2.2.2.1,
    (reachable_rpm_bounds _ (Vehicle.Reachable.shiftUp Vehicle.Reachable.init)).2.2.2.2.2.1⟩

/-- C4: `update` adds `steer * speed_after * c` to the heading, where
`speed_after` is the speed stored by the same call and `c` is 0.04 when
`|speed_after * steer| > lateralGrip * 15` and 0.02 otherwise; with the
constructed grip 1.0 the threshold is 15 and the comparison is strict: at
exactly 15 (and below) the coefficient is 0.02, above 15 it is 0.04. -/
theorem update_heading (v : Vehicle) (input : Input) (dt r : ℚ)
    (hr : v.transmission.ratio = some r) (hm : v.mass ≠ 0) :
    ∃ v1, v.update input dt = some v1 ∧
      v1.speed =
        (v.speed + (Engine.torqueCurve v.engine.rpm * r * input.throttle / v.mass) * dt)
          * v.drag ∧
      v1.heading = v.heading + input.steer * v1.speed *
        (if |v1.speed * input.steer| > v.lateralGrip * 15 then 0.04 else 0.02) ∧
      (v.lateralGrip = 1.0 → |v1.speed * input.steer| = 15 →
        v1.heading = v.heading + input.steer * v1.speed * 0.02) ∧
      (v.lateralGrip = 1.0 → |v1.speed * input.steer| ≤ 15 →
        v1.heading = v.heading + input.steer * v1.speed * 0.02) ∧
      (v.lateralGrip = 1.0 → |v1.speed * input.steer| > 15 →
        v1.heading = v.heading + input.steer * v1.speed * 0.04) := by
  have hh : (if |v.speedAfter r input dt * input.steer| > v.lateralGrip * 15 then
        v.heading + input.steer * v.speedAfter r input dt * 0.04
      else v.heading + input.steer * v.speedAfter r input dt * 0.02)
      = v.heading + input.steer * v.speedAfter r input dt *
        (if |v.speedAfter r input dt * input.steer| > v.lateralGrip * 15 then 0.04
          else 0.02) := by
    split_ifs <;> rfl
  have hle : v.lateralGrip = 1.0 → |v.speedAfter r input dt * input.steer| ≤ 15 →
      (if |v.speedAfter r input dt * input.steer| > v.lateralGrip * 15 then
        v.heading + input.steer * v.speedAfter r input dt * 0.04
      else v.heading + input.steer * v.speedAfter r input dt * 0.02)
      = v.heading + input.steer * v.speedAfter r input dt * 0.02 := by
    intro hg h15
    rw [if_neg]
    rw [hg]
    norm_num
    exact h15
  refine ⟨_, Vehicle.update_eq v input dt r hr hm, rfl, hh, ?_, hle, ?_⟩
  · intro hg h15
    exact hle hg (le_of_eq h15)
  · intro hg h15
    show (if |v.speedAfter r input dt * input.steer| > v.lateralGrip * 15 then _ else _) = _
    rw [if_pos]
    rw [hg]
    norm_num
    exact h15

/-- C4 (witness): in neutral at speed 750/49 with steer 1 the stored speed is
exactly 15, the lateral force is exactly the threshold, and the heading grows
by `1 * 15 * 0.02 = 0.3`. -/
theorem update_heading_witness :
    ∃ v1, ({ Vehicle.new with speed := 750 / 49 } : Vehicle).update ⟨0, 1⟩ 0 = some v1 ∧
      v1.speed = 15 ∧ v1.heading = 0.3 := by
  obtain ⟨v1, hu, hs, _, hb, _⟩ :=
    update_heading { Vehicle.new with speed := 750 / 49 } ⟨0, 1⟩ 0 0 rfl
      (by norm_num [Vehicle.new])
  have hs1 : v1.speed = 15 := by
    rw [hs]
    norm_num [Vehicle.new]
  refine ⟨v1, hu, hs1, ?_⟩
  rw [hb rfl (by rw [hs1]; norm_num), hs1]
  norm_num [Vehicle.new]

/-- C5 (counterexample): a vehicle in neutral at 10 m/s with steer 1 and
`dt = 0`: the speed becomes 9.8 and the heading goes from 0 to
`1 * 9.8 * 0.02 = 0.196`, so the heading is not left unchanged. -/
theorem update_dt_zero_heading_changes :
    ∃ v1, ({ Vehicle.new with speed := 10 } : Vehicle).update ⟨0, 1⟩ 0 = some v1 ∧
      v1.speed = 9.8 ∧ ({ Vehicle.new with speed := 10 } : Vehicle).heading = 0 ∧
      v1.heading = 0.196 ∧ v1.heading ≠ ({ Vehicle.new with speed := 10 } : Vehicle).heading := by
  have hu := Vehicle.update_eq { Vehicle.new with speed := 10 } ⟨0, 1⟩ 0 0 rfl
    (by norm_num [Vehicle.new])
  refine ⟨_, hu, ?_, rfl, ?_, ?_⟩ <;>
    norm_num [Vehicle.new, Vehicle.speedAfter, abs_of_nonneg]

/-- C5 (amended): `update input 0` stores the speed `speed * drag` and adds
`steer * speed_after * c` to the heading (`c` as in the steering step), so the
heading is unchanged when `steer * speed_after = 0`; the engine speed is
re-clamped from the new speed when the ratio is not 0 and is otherwise kept; no
other field changes. -/
theorem update_dt_zero (v : Vehicle) (input : Input) (r : ℚ)
    (hr : v.transmission.ratio = some r) (hm : v.mass ≠ 0) :
    ∃ v1, v.update input 0 = some v1 ∧
      v1.speed = v.speed * v.drag ∧
      v1.heading = v.heading + input.steer * (v.speed * v.drag) *
        (if |v.speed * v.drag * input.steer| > v.lateralGrip * 15 then 0.04 else 0.02) ∧
      (input.steer * v1.speed = 0 → v1.heading = v.heading) ∧
      v1.engine.rpm =
        (if r ≠ 0 then max v.engine.idleRPM (min v.engine.maxRPM |v.speed * v.drag * r * 60|)
          else v.engine.rpm) ∧
      v1.engine.idleRPM = v.engine.idleRPM ∧ v1.engine.maxRPM = v.engine.maxRPM ∧
      v1.transmission = v.transmission ∧ v1.angularVelocity = v.angularVelocity ∧
      v1.mass = v.mass ∧ v1.drag = v.drag ∧ v1.lateralGrip = v.lateralGrip := by
  have hs : v.speedAfter r input 0 = v.speed * v.drag := by
    unfold Vehicle.speedAfter
    ring
  have hu := Vehicle.update_eq v input 0 r hr hm
  rw [hs] at hu
  refine ⟨_, hu, rfl, ?_, ?_, ?_, ?_, ?_, rfl, rfl, rfl, rfl, rfl⟩
  · show (if _ then _ else _) = _
    split_ifs <;> rfl
  · intro h
    have h0 : input.steer * (v.speed * v.drag) = 0 := h
    show (if _ then _ else _) = v.heading
    split_ifs <;> rw [h0, zero_mul, add_zero]
  · show Engine.rpm (if r ≠ 0 then _ else _) = _
    split_ifs <;> rfl
  · show Engine.idleRPM (if r ≠ 0 then _ else _) = _
    split_ifs <;> rfl
  · show Engine.maxRPM (if r ≠ 0 then _ else _) = _
    split_ifs <;> rfl

/-- C5 (witness): first gear at 10 m/s, steer 0, `dt = 0`: the speed becomes
9.8, the heading stays 0 and the engine speed is re-clamped to 2058. -/
theorem update_dt_zero_witness :
    ∃ v1, ({ Vehicle.new.shiftUp with speed := 10 } : Vehicle).update ⟨1, 0⟩ 0 = some v1 ∧
      v1.speed = 9.8 ∧ v1.heading = 0 ∧ v1.engine.rpm = 2058 := by
  obtain ⟨v1, hu, hs, _, hh, hrpm, _⟩ :=
    update_dt_zero { Vehicle.new.shiftUp with speed := 10 } ⟨1, 0⟩ 3.5 rfl
      (by norm_num [Vehicle.new, Vehicle.shiftUp])
  refine ⟨v1, hu, ?_, ?_, ?_⟩
  · rw [hs]
    norm_num [Vehicle.new, Vehicle.shiftUp]
  · rw [hh (zero_mul _)]
    rfl
  · rw [hrpm]
    norm_num [Vehicle.new, Vehicle.shiftUp, Engine.new, abs_of_nonneg]

/-- C14: in any of the seven gears, with throttle 0, `update` stores the speed
`speed * drag` for every `dt`; with the constructed drag this is
`0.98 * speed`. -/
theorem update_no_throttle (v : Vehicle) (input : Input) (dt : ℚ)
    (hg : v.transmission.gears = Transmission.new.gears)
    (ho : v.transmission.order = Transmission.new.order)
    (h0 : 0 ≤ v.transmission.currentIndex) (h6 : v.transmission.currentIndex ≤ 6)
    (hm : v.mass ≠ 0) (ht : input.throttle = 0) :
    ∃ v1, v.update input dt = some v1 ∧ v1.speed = v.speed * v.drag ∧
      (v.drag = 0.98 → v1.speed = 0.98 * v.speed) := by
  obtain ⟨r, hr⟩ := Transmission.ratio_isSome v.transmission hg ho h0 h6
  have hs : v.speedAfter r input dt = v.speed * v.drag := by
    unfold Vehicle.speedAfter
    rw [ht]
    ring
  refine ⟨_, Vehicle.update_eq v input dt r hr hm, hs, ?_⟩
  intro hd
  show v.speedAfter r input dt = _
  rw [hs, hd]
  ring

/-- C14 (witness): third gear at 20 m/s, throttle 0: the speed becomes 19.6. -/
theorem update_no_throttle_witness :
    ∃ v1, ({ Vehicle.new.shiftUp.shiftUp.shiftUp with speed := 20 } : Vehicle).update
        ⟨0, 1⟩ (1 / 60) = some v1 ∧ v1.speed = 19.6 := by
  obtain ⟨v1, hu, _, hs⟩ :=
    update_no_throttle { Vehicle.new.shiftUp.shiftUp.shiftUp with speed := 20 } ⟨0, 1⟩ (1 / 60)
      rfl rfl (by decide) (by decide)
      (by norm_num [Vehicle.new, Vehicle.shiftUp]) rfl
  refine ⟨v1, hu, ?_⟩
  rw [hs rfl]
  norm_num

/-- C15: in neutral (ratio 0) `update` leaves the engine, and so `engine.rpm`,
as it was on entry, whatever the speed, the input and `dt`. -/
theorem update_neutral_rpm (v : Vehicle) (input : Input) (dt : ℚ)
    (hr : v.transmission.ratio = some 0) (hm : v.mass ≠ 0) :
    ∃ v1, v.update input dt = some v1 ∧ v1.engine.rpm = v.engine.rpm ∧
      v1.engine = v.engine := by
  have hu := Vehicle.update_eq v input dt 0 hr hm
  have h00 : ¬ ((0 : ℚ) ≠ 0) := fun h => h rfl
  refine ⟨_, hu, ?_, ?_⟩
  · dsimp only
    rw [if_neg h00]
  · dsimp only
    rw [if_neg h00]

/-- C15 (witness): a new vehicle rolling at 50 m/s in neutral keeps 1000 RPM. -/
theorem update_neutral_rpm_witness :
    ∃ v1, ({ Vehicle.new with speed := 50 } : Vehicle).update ⟨1, 1⟩ (1 / 60) = some v1 ∧
      v1.engine.rpm = 1000 := by
  obtain ⟨v1, hu, hrpm, _⟩ :=
    update_neutral_rpm { Vehicle.new with speed := 50 } ⟨1, 1⟩ (1 / 60) rfl
      (by norm_num [Vehicle.new])
  exact ⟨v1, hu, hrpm⟩

/-- C16: `update` returns a state in which the transmission (index and
tables), `mass`, `drag`, `lateralGrip`, `angularVelocity`, `idleRPM` and
`maxRPM` are as on entry, so it writes at most `engine.rpm`, `speed` and
`heading`; `shiftUp` and `shiftDown` leave the engine, `speed`, `heading` and
every other vehicle field as they were, and the tables of the transmission
too, so they write at most `currentIndex`. -/
theorem update_shift_frame (v : Vehicle) (input : Input) (dt r : ℚ)
    (hr : v.transmission.ratio = some r) (hm : v.mass ≠ 0) :
    (∃ v1, v.update input dt = some v1 ∧
      v1.transmission = v.transmission ∧ v1.mass = v.mass ∧ v1.drag = v.drag ∧
      v1.lateralGrip = v.lateralGrip ∧ v1.angularVelocity = v.angularVelocity ∧
      v1.engine.idleRPM = v.engine.idleRPM ∧ v1.engine.maxRPM = v.engine.maxRPM) ∧
    (v.shiftUp.engine = v.engine ∧ v.shiftUp.speed = v.speed ∧
      v.shiftUp.heading = v.heading ∧ v.shiftUp.angularVelocity = v.angularVelocity ∧
      v.shiftUp.mass = v.mass ∧ v.shiftUp.drag = v.drag ∧
      v.shiftUp.lateralGrip = v.lateralGrip ∧
      v.shiftUp.transmission.gears = v.transmission.gears ∧
      v.shiftUp.transmission.order = v.transmission.order) ∧
    (v.shiftDown.engine = v.engine ∧ v.shiftDown.speed = v.speed ∧
      v.shiftDown.heading = v.heading ∧ v.shiftDown.angularVelocity = v.angularVelocity ∧
      v.shiftDown.mass = v.mass ∧ v.shiftDown.drag = v.drag ∧
      v.shiftDown.lateralGrip = v.lateralGrip ∧
      v.shiftDown.transmission.gears = v.transmission.gears ∧
      v.shiftDown.transmission.order = v.transmission.order) := by
  refine ⟨⟨_, Vehicle.update_eq v input dt r hr hm, rfl, rfl, rfl, rfl, rfl, ?_, ?_⟩,
    ⟨rfl, rfl, rfl, rfl, rfl, rfl, rfl, ?_, ?_⟩, ⟨rfl, rfl, rfl, rfl, rfl, rfl, rfl, ?_, ?_⟩⟩
  · show Engine.idleRPM (if r ≠ 0 then _ else _) = _
    split_ifs <;> rfl
  · show Engine.maxRPM (if r ≠ 0 then _ else _) = _
    split_ifs <;> rfl
  · show v.transmission.shiftUp.gears = _
    unfold Transmission.shiftUp
    split_ifs <;> rfl
  · show v.transmission.shiftUp.order = _
    unfold Transmission.shiftUp
    split_ifs <;> rfl
  · show v.transmission.shiftDown.gears = _
    unfold Transmission.shiftDown
    split_ifs <;> rfl
  · show v.transmission.shiftDown.order = _
    unfold Transmission.shiftDown
    split_ifs <;> rfl

/-- C16 (witness): second gear at 10 m/s with throttle and steer: the update
keeps the gear index 3 and the mass 1200, a shift keeps the speed 10. -/
theorem update_shift_frame_witness :
    (∃ v1, ({ Vehicle.new.shiftUp.shiftUp with speed := 10 } : Vehicle).update ⟨1, 1⟩ (1 / 60)
        = some v1 ∧ v1.transmission.currentIndex = 3 ∧ v1.mass = 1200) ∧
      ({ Vehicle.new.shiftUp.shiftUp with speed := 10 } : Vehicle).shiftUp.speed = 10 := by
  obtain ⟨⟨v1, hu, ht, hmass, _⟩, ⟨_, hs, _⟩, _⟩ :=
    update_shift_frame { Vehicle.new.shiftUp.shiftUp with speed := 10 } ⟨1, 1⟩ (1 / 60) 2.2 rfl
      (by norm_num [Vehicle.new, Vehicle.shiftUp])
  refine ⟨⟨v1, hu, ?_, ?_⟩, hs⟩
  · rw [ht]
    rfl
  · rw [hmass]
    rfl

/-- C17 (counterexample): first gear, 4000 RPM, speed 0, throttle 1 and
`dt = 1/60`: the stored speed is `2401/180000 = 0.0133388...`, which is below
0.01335. -/
theorem update_peak_first_gear_below :
    ∃ v1, ({ Vehicle.new.shiftUp with engine := { Engine.new with rpm := 4000 } } : Vehicle).update
        ⟨1, 0⟩ (1 / 60) = some v1 ∧
      v1.speed = 2401 / 180000 ∧ v1.speed < 0.01335 ∧ ¬ (0.01335 ≤ v1.speed) := by
  have hu := Vehicle.update_eq
    { Vehicle.new.shiftUp with engine := { Engine.new with rpm := 4000 } } ⟨1, 0⟩ (1 / 60) 3.5 rfl
    (by norm_num [Vehicle.new, Vehicle.shiftUp])
  refine ⟨_, hu, ?_, ?_, ?_⟩ <;>
    norm_num [Vehicle.new, Vehicle.shiftUp, Engine.new, Vehicle.speedAfter, Engine.torqueCurve]

/-- C17 (amended): in first gear (ratio 3.5) at 4000 RPM and speed 0, with mass
1200, drag 0.98, throttle 1 and `dt = 1/60`, the stored speed is exactly
`(280*3.5/1200)*(1/60)*0.98 = 2401/180000`, whose decimal expansion begins
0.01333. -/
theorem update_peak_first_gear (v : Vehicle) (input : Input)
    (hr : v.transmission.ratio = some 3.5) (hrpm : v.engine.rpm = 4000)
    (hs : v.speed = 0) (hmass : v.mass = 1200) (hdrag : v.drag = 0.98)
    (ht : input.throttle = 1) :
    ∃ v1, v.update input (1 / 60) = some v1 ∧
      v1.speed = (280 * 3.5 / 1200) * (1 / 60) * 0.98 ∧
      v1.speed = 2401 / 180000 ∧ 0.01333 ≤ v1.speed ∧ v1.speed < 0.01334 := by
  have hm : v.mass ≠ 0 := by rw [hmass]; norm_num
  have hsp : v.speedAfter 3.5 input (1 / 60) = 2401 / 180000 := by
    unfold Vehicle.speedAfter
    rw [hrpm, hs, hmass, hdrag, ht]
    norm_num [Engine.torqueCurve]
  refine ⟨_, Vehicle.update_eq v input (1 / 60) 3.5 hr hm, ?_, hsp, ?_, ?_⟩
  · show v.speedAfter 3.5 input (1 / 60) = _
    rw [hsp]
    norm_num
  · show _ ≤ v.speedAfter 3.5 input (1 / 60)
    rw [hsp]
    norm_num
  · show v.speedAfter 3.5 input (1 / 60) < _
    rw [hsp]
    norm_num

/-- C17 (witness): a new vehicle shifted into first gear with the engine at
4000 RPM. -/
theorem update_peak_first_gear_witness :
    ∃ v1, ({ Vehicle.new.shiftUp with engine := { Engine.new with rpm := 4000 } } : Vehicle).update
        ⟨1, 1⟩ (1 / 60) = some v1 ∧
      v1.speed = (280 * 3.5 / 1200) * (1 / 60) * 0.98 ∧ 0.01333 ≤ v1.speed ∧
      v1.speed < 0.01334 := by
  obtain ⟨v1, hu, h1, _, h3, h4⟩ :=
    update_peak_first_gear
      { Vehicle.new.shiftUp with engine := { Engine.new with rpm := 4000 } } ⟨1, 1⟩
      rfl rfl rfl rfl rfl rfl
  exact ⟨v1, hu, h1, h3, h4⟩

/-- C18: for every rpm from 900 to 7000 the torque is at least 260.78, the
value at 900 RPM, hence positive, and it is the value of the parabola (the
floor 0 of `max` is not the larger argument); so in every reachable vehicle
state the torque at `engine.rpm`, which `update` reads, is positive. -/
theorem torqueCurve_operating_range (rpm : ℚ) (h1 : 900 ≤ rpm) (h2 : rpm ≤ 7000) :
    0 < Engine.torqueCurve rpm ∧ 260.78 ≤ Engine.torqueCurve rpm ∧
      Engine.torqueCurve 900 = 260.78 ∧
      Engine.torqueCurve rpm = -0.000002 * (rpm - 4000) ^ 2 + 280 ∧
      0 < -0.000002 * (rpm - 4000) ^ 2 + 280 ∧
      ∀ v : Vehicle, v.Reachable →
        0 < Engine.torqueCurve v.engine.rpm ∧
          Engine.torqueCurve v.engine.rpm = -0.000002 * (v.engine.rpm - 4000) ^ 2 + 280 := by
  have hpos : ∀ x : ℚ, 900 ≤ x → x ≤ 7000 →
      0 < Engine.torqueCurve x ∧ 260.78 ≤ Engine.torqueCurve x ∧
        Engine.torqueCurve x = -0.000002 * (x - 4000) ^ 2 + 280 := by
    intro x hx1 hx2
    obtain ⟨hp, he⟩ := torqueCurve_ge_of_range x hx1 hx2
    have h0 : (0 : ℚ) < 260.78 := by norm_num
    rw [he]
    exact ⟨lt_of_lt_of_le h0 hp, hp, rfl⟩
  obtain ⟨ha, hb, hc⟩ := hpos rpm h1 h2
  refine ⟨ha, hb, by norm_num [Engine.torqueCurve], hc, by rw [← hc]; exact ha, ?_⟩
  intro v hv
  have hi := hv.inv
  obtain ⟨hva, _, hvc⟩ := hpos v.engine.rpm hi.rpm_ge hi.rpm_le
  exact ⟨hva, hvc⟩

/-- C18 (witness): the torque at the maximum engine speed 7000 is 262. -/
theorem torqueCurve_operating_range_witness :
    (900 : ℚ) ≤ 7000 ∧ 0 < Engine.torqueCurve 7000 ∧ 260.78 ≤ Engine.torqueCurve 7000 :=
  ⟨by norm_num, (torqueCurve_operating_range 7000 (by norm_num) (le_refl _)).1,
    (torqueCurve_operating_range 7000 (by norm_num) (le_refl _)).2.1⟩

/-- C19 (counterexample): binary64, a new vehicle shifted up into gear "5"
(ratio 0.9, speed 0, 1000 RPM), throttle 1 and `dt = 5e-324 > 0`: the increment
`(262 * 0.9 / 1200) * dt` is below half the smallest positive value and rounds
to 0, so the stored speed is 0 and `speed_after / drag - speed_before` is 0,
not positive. -/
theorem update64_increment_lost :
    Vehicle64.new.shiftUp.shiftUp.shiftUp.shiftUp.shiftUp.transmission.gear = some "5" ∧
      Vehicle64.new.shiftUp.shiftUp.shiftUp.shiftUp.shiftUp.transmission.ratio = some 0.9 ∧
      Vehicle64.new.shiftUp.shiftUp.shiftUp.shiftUp.shiftUp.speed = 0 ∧
      F64.gt 5e-324 0 = true ∧
      (Vehicle64.new.shiftUp.shiftUp.shiftUp.shiftUp.shiftUp.update ⟨1, 0⟩ 5e-324).speed = 0 ∧
      (Vehicle64.new.shiftUp.shiftUp.shiftUp.shiftUp.shiftUp.update ⟨1, 0⟩ 5e-324).speed
          / Vehicle64.new.shiftUp.shiftUp.shiftUp.shiftUp.shiftUp.drag
          - Vehicle64.new.shiftUp.shiftUp.shiftUp.shiftUp.shiftUp.speed = 0 := by
  decide!

/-- C19 (amended): in a reachable state with gear ratio `r`, an update with
throttle 1 and `dt > 0` moves the speed of the integration step,
`speed1 = speed + (torqueCurve rpm * r * throttle / mass) * dt`, in the
direction of `r` or leaves it where it was: `speed ≤ speed1` in gears "1" to
"5" and `speed1 ≤ speed` in "R", and the stored speed `speed1 * drag` is then at
least, respectively at most, `speed * drag`; in reverse from a speed at most 0
the stored speed is negative. -/
theorem update_throttle_sign (v : Vehicle) (hv : v.Reachable) (input : Input) (dt r : ℚ)
    (hr : v.transmission.ratio = some r) (ht : input.throttle = 1) (hdt : 0 < dt) :
    ∃ v1 speed1, v.update input dt = some v1 ∧
      speed1 = v.speed + (Engine.torqueCurve v.engine.rpm * r * input.throttle / v.mass) * dt ∧
      v1.speed = speed1 * v.drag ∧
      (0 < r → v.speed ≤ speed1 ∧ v.speed * v.drag ≤ v1.speed) ∧
      (r < 0 → speed1 ≤ v.speed ∧ v1.speed ≤ v.speed * v.drag) ∧
      (∀ g ∈ ["1", "2", "3", "4", "5"], v.transmission.gear = some g →
        v.speed ≤ speed1 ∧ v.speed * v.drag ≤ v1.speed) ∧
      (v.transmission.gear = some "R" → speed1 ≤ v.speed ∧ v1.speed ≤ v.speed * v.drag) ∧
      (v.transmission.gear = some "R" → v.speed ≤ 0 → v1.speed < 0) := by
  have hi := hv.inv
  have hT : 0 < Engine.torqueCurve v.engine.rpm := by
    obtain ⟨hp, he⟩ := torqueCurve_ge_of_range v.engine.rpm hi.rpm_ge hi.rpm_le
    rw [he]
    have h0 : (0 : ℚ) < 260.78 := by norm_num
    exact lt_of_lt_of_le h0 hp
  obtain ⟨hsR, hsF⟩ := Transmission.ratio_sign v.transmission r hi.gears hi.order
    hi.index_nonneg hi.index_le hr
  have hinc : (Engine.torqueCurve v.engine.rpm * r * input.throttle / v.mass) * dt
      = Engine.torqueCurve v.engine.rpm * r / 1200 * dt := by
    rw [ht, hi.mass, mul_one]
  have hpos : 0 < r → 0 < Engine.torqueCurve v.engine.rpm * r / 1200 * dt := by
    intro h
    positivity
  have hneg : r < 0 → Engine.torqueCurve v.engine.rpm * r / 1200 * dt < 0 := by
    intro h
    have h1 : Engine.torqueCurve v.engine.rpm * r < 0 := mul_neg_of_pos_of_neg hT h
    have h2 : Engine.torqueCurve v.engine.rpm * r / 1200 < 0 :=
      div_neg_of_neg_of_pos h1 (by norm_num)
    exact mul_neg_of_neg_of_pos h2 hdt
  have hd : (0 : ℚ) < v.drag := by rw [hi.drag]; norm_num
  have hup : 0 < r →
      v.speed ≤ v.speed + (Engine.torqueCurve v.engine.rpm * r * input.throttle / v.mass) * dt ∧
        v.speed * v.drag ≤ v.speedAfter r input dt := by
    intro h
    have h1 := hpos h
    rw [← hinc] at h1
    have h2 : v.speed
        ≤ v.speed + (Engine.torqueCurve v.engine.rpm * r * input.throttle / v.mass) * dt := by
      linarith
    exact ⟨h2, mul_le_mul_of_nonneg_right h2 (le_of_lt hd)⟩
  have hdown : r < 0 →
      v.speed + (Engine.torqueCurve v.engine.rpm * r * input.throttle / v.mass) * dt ≤ v.speed ∧
        v.speedAfter r input dt ≤ v.speed * v.drag := by
    intro h
    have h1 := hneg h
    rw [← hinc] at h1
    have h2 : v.speed + (Engine.torqueCurve v.engine.rpm * r * input.throttle / v.mass) * dt
        ≤ v.speed := by
      linarith
    exact ⟨h2, mul_le_mul_of_nonneg_right h2 (le_of_lt hd)⟩
  refine ⟨_, _, Vehicle.update_eq v input dt r hr hi.mass_ne_zero, rfl, rfl, hup, hdown,
    ?_, ?_, ?_⟩
  · intro g hg hgear
    exact hup (hsF g hg hgear)
  · intro hgear
    exact hdown (hsR hgear)
  · intro hgear hs
    show v.speedAfter r input dt < 0
    have h1 := hneg (hsR hgear)
    rw [← hinc] at h1
    unfold Vehicle.speedAfter
    exact mul_neg_of_neg_of_pos (by linarith) hd

/-- C19 (witness): a new vehicle shifted down into reverse, full throttle for
one frame of 1/60 s: the stored speed is negative. -/
theorem update_throttle_sign_witness :
    Vehicle.new.shiftDown.Reachable ∧
      ∃ v1, Vehicle.new.shiftDown.update ⟨1, 0⟩ (1 / 60) = some v1 ∧ v1.speed < 0 := by
  have hreach : Vehicle.new.shiftDown.Reachable :=
    Vehicle.Reachable.shiftDown Vehicle.Reachable.init
  obtain ⟨v1, _, hu, _, _, _, _, _, _, h⟩ :=
    update_throttle_sign Vehicle.new.shiftDown hreach ⟨1, 0⟩ (1 / 60) (-3.2) rfl
      rfl (by norm_num)
  exact ⟨hreach, v1, hu, h rfl (le_refl _)⟩

/-! Section: Input -/

/-- C20: after any sequence of `onKey` events from `new Input()` (throttle 0,
steer 0) the throttle is 0 or 1 and the steer is -1, 0 or 1; and an event whose
key is none of "w", "a", "d" leaves the input as it was. -/
theorem onKey_events_range (events : List (String × Bool)) (i : Input) (key : String)
    (down : Bool) (hw : key ≠ "w") (ha : key ≠ "a") (hd : key ≠ "d") :
    Input.new.throttle = 0 ∧ Input.new.steer = 0 ∧
      ((Input.afterEvents events).throttle = 0 ∨ (Input.afterEvents events).throttle = 1) ∧
      ((Input.afterEvents events).steer = -1 ∨ (Input.afterEvents events).steer = 0 ∨
        (Input.afterEvents events).steer = 1) ∧
      i.onKey key down = i := by
  have hrange := Input.foldl_range events Input.new ⟨Or.inl rfl, Or.inr (Or.inl rfl)⟩
  refine ⟨rfl, rfl, hrange.1, hrange.2, ?_⟩
  unfold Input.onKey
  simp only [if_neg hw, if_neg ha, if_neg hd]

/-- C20 (witness): "w" down, "a" down, "d" up, then a key "x" that is not
bound. -/
theorem onKey_events_range_witness :
    ((Input.afterEvents [("w", true), ("a", true), ("d", false)]).throttle = 0 ∨
        (Input.afterEvents [("w", true), ("a", true), ("d", false)]).throttle = 1) ∧
      (Input.afterEvents [("w", true), ("a", true), ("d", false)]).onKey "x" true
        = Input.afterEvents [("w", true), ("a", true), ("d", false)] :=
  have h := onKey_events_range [("w", true), ("a", true), ("d", false)]
    (Input.afterEvents [("w", true), ("a", true), ("d", false)]) "x" true
    (by decide) (by decide) (by decide)
  ⟨h.2.2.1, h.2.2.2.2⟩


end Sim
